import Mathlib

/-!
Verification development for the fashionAi concurrent orchestration core.

The Python sources under `app/services/` are shallowly embedded:

* image/video artifact bytes are modelled as `String`, with Python
  truthiness of a bytes value `b` rendered as `b ≠ ""` (both `None` and
  `b""` are falsy in the source's `if result:` checks);
* Python `dict`s are association lists `List (String × α)`; assignment
  `d[k] = v` is `dictSet`, which overwrites an existing key in place and
  otherwise appends, exactly like insertion-ordered `dict` assignment;
* fallible collaborator calls are oracles returning `Except String α`
  (an `Except.error` models a raised exception) or `Option` values
  (`none` models a Python `None` return);
* the asyncio event loop is sequentialized: each embedded function takes
  the values its awaited calls produced as explicit oracle arguments.
-/

namespace FashionAi

/-- Artifact bytes (image/video payloads). `""` plays the role of the falsy
empty bytes object. -/
abbrev Img := String

/-- First value stored under key `k`, like `d.get(k)` on a Python dict. -/
def dictFind (m : List (String × α)) (k : String) : Option α :=
  (m.find? (fun kv => kv.1 == k)).map (·.2)

/-- Python dict assignment `d[k] = v`: overwrite in place when the key is
present, append otherwise (insertion order preserved). -/
def dictSet (m : List (String × α)) (k : String) (v : α) : List (String × α) :=
  if m.any (fun kv => kv.1 == k) then
    m.map (fun kv => if kv.1 == k then (kv.1, v) else kv)
  else
    m ++ [(k, v)]

/-! ### `app/services/image_upscaler.py` and `app/services/concurrent_upscaler.py` -/

/-- Outcome of one call to `ImageUpscaler.upscale_image_bytes`:
`Except.error e` models a raised exception (all of which the callee catches
into a `None` return at its own level, but `_upscale_with_retry` also guards
against a raise), `Except.ok none` a `None` return, `Except.ok (some b)` a
bytes return. -/
abbrev UpscaleCall := Except String (Option Img)

/-- The `if result:` test of the source: a call produced usable bytes only
when it returned a truthy (nonempty) bytes value. -/
def attemptSucceeds : UpscaleCall → Option Img
  | .ok (some b) => if b == "" then none else some b
  | .ok none => none
  | .error _ => none

/-- Embeds the `for attempt in range(max_retries + 1)` loop of
`ConcurrentUpscaler._upscale_with_retry` over the list of remaining attempt
indices. Returns the result together with the number of calls to
`upscale_image_bytes` actually executed; the inter-attempt `time.sleep`
back-off has no observable effect in the embedding. -/
def runAttempts (call : Nat → UpscaleCall) : List Nat → Option Img × Nat
  | [] => (none, 0)
  | i :: rest =>
      match attemptSucceeds (call i) with
      | some b => (some b, 1)
      | none =>
          let p := runAttempts call rest
          (p.1, p.2 + 1)

/-- Embeds `ConcurrentUpscaler._upscale_with_retry(task, max_retries)`:
attempts `upscale_image_bytes` for `attempt` in `range(max_retries + 1)`,
returning the first truthy result, else `None` after the loop. -/
def upscaleWithRetry (call : Nat → UpscaleCall) (maxRetries : Nat) : Option Img × Nat :=
  runAttempts call (List.range (maxRetries + 1))

/-- `_upscale_with_retry` with its default argument `max_retries = 2`, the
value every call site of the repository uses. -/
def upscaleWithRetryDefault (call : Nat → UpscaleCall) : Option Img × Nat :=
  upscaleWithRetry call 2

/-- Embeds `ImageUpscaler._upscale_with_realesrgan`: `enhance t` models
`RealESRGANer(..., tile=t, ...).enhance(img, outscale=scale)`, the tile size
being the only parameter that differs between the two attempts. The first
attempt uses the pre-initialized upsampler (`tile=128`); on an exception a
temporary upsampler with `tile=64` is built and tried exactly once more; a
second exception yields `None`. The returned list records the tile sizes of
the attempts that were executed, in order. -/
def upscaleWithRealesrgan (enhance : Nat → Except String Img) : Option Img × List Nat :=
  match enhance 128 with
  | .ok out => (some out, [128])
  | .error _ =>
      match enhance 64 with
      | .ok out => (some out, [128, 64])
      | .error _ => (none, [128, 64])

/-- Embeds the inner `limited_upscale` coroutine of
`ConcurrentUpscaler.upscale_with_fallback`: it runs `_upscale_with_retry`
in the executor and catches any exception into `(task.key, None)`, so the
gathered results never contain exceptions from these tasks. `retry k` is
the oracle for the whole retry ladder of key `k`. -/
def limitedUpscale (retry : String → UpscaleCall) (k : String) : String × Option Img :=
  match retry k with
  | .ok r => (k, r)
  | .error _ => (k, none)

/-- `original_images[key]` lookup in the fallback branch. The key is always
present (it came out of `images_dict.items()`), so the `KeyError` default is
never reached. -/
def origLookup (originalImages : List (String × Img)) (k : String) : Img :=
  (dictFind originalImages k).getD ""

/-- Embeds the result-collection loop of
`ConcurrentUpscaler.upscale_with_fallback`: truthy upscaled bytes are stored
under the key, otherwise the original bytes are stored under the key. -/
def collectUpscaled (originalImages : List (String × Img)) (acc : List (String × Img)) :
    List (String × Option Img) → List (String × Img)
  | [] => acc
  | (k, r) :: rest =>
      match r with
      | some b =>
          if b == "" then
            collectUpscaled originalImages (dictSet acc k (origLookup originalImages k)) rest
          else
            collectUpscaled originalImages (dictSet acc k b) rest
      | none =>
          collectUpscaled originalImages (dictSet acc k (origLookup originalImages k)) rest

/-- Embeds `ConcurrentUpscaler.upscale_with_fallback`: copies the input as
`original_images`, runs `limited_upscale` per key, then collects the results
with per-key fallback to the original bytes. Returns
`(upscaled_images, original_images)`. -/
def upscaleWithFallback (retry : String → UpscaleCall) (imagesDict : List (String × Img)) :
    List (String × Img) × List (String × Img) :=
  let originalImages := imagesDict
  let results := imagesDict.map (fun kv => limitedUpscale retry kv.1)
  (collectUpscaled originalImages [] results, originalImages)

/-- A key's retry ladder produced no usable bytes: every upscale attempt for
it failed (either `_upscale_with_retry` returned a falsy value or the
executor call raised). -/
def retryFailed (x : UpscaleCall) : Bool :=
  match x with
  | .ok (some b) => b == ""
  | .ok none => true
  | .error _ => true

/-- The value `upscale_with_fallback` stores under a given input entry. -/
def fallbackValue (retry : String → UpscaleCall) (originalImages : List (String × Img))
    (kv : String × Img) : Img :=
  match (limitedUpscale retry kv.1).2 with
  | some b => if b == "" then origLookup originalImages kv.1 else b
  | none => origLookup originalImages kv.1

/-! ### `app/services/concurrent_image_generator.py` -/

/-- Outcome of one generation job as seen by the `asyncio.gather(...,
return_exceptions=True)` fan-in: `Except.error e` models a gathered
exception, `Except.ok none` a `None` result from
`_generate_single_image_concurrent` (all retries exhausted), and
`Except.ok (some b)` generated artifact bytes. -/
abbrev JobOutcome := Except String (Option Img)

/-- The `elif result:` branch of the result-processing loop: a job counts as
succeeded exactly when its gathered outcome is truthy bytes (not an
exception, not `None`, not empty bytes). -/
def jobSucceeded : JobOutcome → Bool
  | .ok (some b) => !(b == "")
  | .ok none => false
  | .error _ => false

/-- The bytes of a succeeded job (`""` is never read under `jobSucceeded`). -/
def jobBytes : JobOutcome → Img
  | .ok (some b) => b
  | .ok none => ""
  | .error _ => ""

/-- Embeds the result-processing loop of
`ConcurrentImageGenerator.generate_images_with_background_array_concurrent`:
`for task, result in zip(tasks, results)`, an exception or falsy result is
only logged, a truthy result is stored under `task.task_id`. -/
def collectVariations (acc : List (String × Img)) :
    List (String × JobOutcome) → List (String × Img)
  | [] => acc
  | (k, out) :: rest =>
      match out with
      | .error _ => collectVariations acc rest
      | .ok none => collectVariations acc rest
      | .ok (some b) =>
          if b == "" then collectVariations acc rest
          else collectVariations (dictSet acc k b) rest

/-- Python's `key.startswith(tag)`, computed on the character list (the
byte-position loop of `String.startsWith` is irreducible; prefix-of on
`String.data` is the same predicate). -/
def pyStartsWith (s tag : String) : Bool :=
  tag.data.isPrefixOf s.data

/-- Embeds the primary-image selection of
`generate_images_with_background_array_concurrent`: scan `all_variations` in
insertion order for the first key starting with `"frontside"`; if none is
found (or the found value is falsy) fall back to the first value overall. -/
def selectPrimary (vars : List (String × Img)) : Option Img :=
  match (vars.find? (fun kv => pyStartsWith kv.1 "frontside")).map (·.2) with
  | some b => if b == "" then vars.head?.map (·.2) else some b
  | none => vars.head?.map (·.2)

/-- Embeds the primary-image selection of `generate_images_concurrent`:
`all_variations.get("frontside") or next(iter(all_variations.values()),
None)`. -/
def selectPrimaryPlain (vars : List (String × Img)) : Option Img :=
  match dictFind vars "frontside" with
  | some b => if b == "" then vars.head?.map (·.2) else some b
  | none => vars.head?.map (·.2)

/-- Embeds the tail of
`generate_images_with_background_array_concurrent` after the gather: collect
the variations, raise `ValueError` when the map is empty, otherwise return
the selected primary image and the map. `jobs` pairs each submitted task's
`task_id` with its gathered outcome, in submission order. -/
def generateImagesBackgroundArray (jobs : List (String × JobOutcome)) :
    Except String (Option Img × List (String × Img)) :=
  let allVariations := collectVariations [] jobs
  if allVariations.isEmpty then
    Except.error "All background array generation tasks failed."
  else
    Except.ok (selectPrimary allVariations, allVariations)

/-! ### `app/services/task_queue.py` -/

/-- The `TaskStatus` enum. -/
inductive TaskStatus where
  | pending
  | running
  | completed
  | failed
  | cancelled
deriving DecidableEq, Repr

/-- The `TaskResult` dataclass. Wall-clock stamps are modelled as abstract
`Nat` ticks. -/
structure TaskResult where
  task_id : String
  status : TaskStatus
  result : Option Img := none
  error : Option String := none
  start_time : Option Nat := none
  end_time : Option Nat := none
deriving DecidableEq, Repr

/-- The `Task` dataclass. The opaque `func/args/kwargs` payload is carried
by the execution oracle of the embedding rather than stored, and
`created_at` plays no role in the embedded behavior. -/
structure Task where
  task_id : String
  priority : Int
  max_retries : Nat
  retry_count : Nat
deriving DecidableEq, Repr

/-- The queue-facing state of a `TaskQueue` instance: the bounded
`asyncio.PriorityQueue` content as `(priority, timestamp, task)` entries in
arrival order, and the `results` dict. -/
structure QueueState where
  max_queue_size : Nat
  queue : List (Int × Nat × Task)
  results : List (String × TaskResult)
deriving DecidableEq, Repr

/-- How a call to `TaskQueue.add_task` leaves the caller.
`blockedOnPut` is the caller suspended inside `await self.queue.put(...)`:
an awaited `asyncio.PriorityQueue.put` on a full queue waits for a free
slot and never raises `asyncio.QueueFull` (only `put_nowait` raises it), so
the `except asyncio.QueueFull` branch — represented by `raisedQueueFull`,
which would raise `Exception("Task queue is full")` to the caller — is
unreachable. -/
inductive AddTaskOutcome where
  | returned (taskId : String) (st : QueueState)
  | blockedOnPut (st : QueueState)
  | raisedQueueFull (st : QueueState)
deriving DecidableEq, Repr

/-- Embeds `TaskQueue.add_task(func, *args, priority, task_id, max_retries,
**kwargs)` with an explicit `task_id` (the `uuid4` default is outside the
model) at the resolution of one event-loop step: `now` is the `time.time()`
enqueue stamp. When the queue is below capacity the entry is appended and
the task's result slot is unconditionally (re)initialized to a fresh
Pending `TaskResult`; when the queue is at capacity the awaited `put`
suspends the caller before any result is written. -/
def addTask (st : QueueState) (taskId : String) (priority : Int) (maxRetries : Nat)
    (now : Nat) : AddTaskOutcome :=
  let task : Task := { task_id := taskId, priority := priority,
                       max_retries := maxRetries, retry_count := 0 }
  if st.queue.length < st.max_queue_size then
    let st1 := { st with queue := st.queue ++ [(priority, now, task)] }
    let freshResult : TaskResult := { task_id := taskId, status := TaskStatus.pending }
    let st2 := { st1 with results := dictSet st1.results taskId freshResult }
    AddTaskOutcome.returned taskId st2
  else
    AddTaskOutcome.blockedOnPut st

/-- Embeds `TaskQueue.get_result`. -/
def getResult (st : QueueState) (taskId : String) : Option TaskResult :=
  dictFind st.results taskId

/-- What one execution of a task's runnable did. -/
inductive ExecOutcome where
  | ok (v : Img)
  | raises (e : String)
deriving DecidableEq, Repr

/-- Embeds `TaskQueue._process_task` on the task's stored result `r`:
mark Running with a start stamp; on success store the value and mark
Completed with an end stamp; on an exception increment `retry_count` and
either re-enqueue at `task.priority + 10` — the stored `task.priority`
itself is not mutated — resetting the result to Pending with no start
stamp, or, once `retry_count` exceeds `max_retries`, mark Failed with the
captured error. Returns the updated result and the re-enqueued
`(priority, task)` entry, if any. -/
def processTask (task : Task) (r : TaskResult) (outcome : ExecOutcome)
    (startT endT : Nat) : TaskResult × Option (Int × Task) :=
  let r1 := { r with status := TaskStatus.running, start_time := some startT }
  match outcome with
  | .ok v =>
      ({ r1 with result := some v, status := TaskStatus.completed,
                 end_time := some endT }, none)
  | .raises e =>
      let task' := { task with retry_count := task.retry_count + 1 }
      if task'.retry_count ≤ task.max_retries then
        ({ r1 with status := TaskStatus.pending, start_time := none },
         some (task.priority + 10, task'))
      else
        ({ r1 with status := TaskStatus.failed, error := some e,
                   end_time := some endT }, none)

/-- A worker processing one task to its terminal state: each failure
re-enqueues the demoted task and a worker picks it up again. `exec n` is
the outcome of the execution whose `retry_count` on entry is `n`. Returns
(number of executions of the runnable, the priorities carried by the
successive re-enqueued entries, the final stored result). `fuel` bounds
the recursion; `runTask` supplies `max_retries + 1 - retry_count`, enough
to reach a terminal status. -/
def runTaskAux (exec : Nat → ExecOutcome) : Nat → Task → TaskResult →
    Nat × List Int × TaskResult
  | 0, _, r => (0, [], r)
  | fuel + 1, task, r =>
      let step := processTask task r (exec task.retry_count)
        task.retry_count (task.retry_count + 1)
      match step.2 with
      | none => (1, [], step.1)
      | some (p, task') =>
          let rest := runTaskAux exec fuel task' step.1
          (rest.1 + 1, p :: rest.2.1, rest.2.2)

/-- Drive a task to its terminal state through the retry ladder. -/
def runTask (exec : Nat → ExecOutcome) (task : Task) (r : TaskResult) :
    Nat × List Int × TaskResult :=
  runTaskAux exec (task.max_retries + 1 - task.retry_count) task r

/-- The terminal-status test of `wait_for_result`:
`result.status in [TaskStatus.COMPLETED, TaskStatus.FAILED,
TaskStatus.CANCELLED]`. -/
def isTerminal (s : TaskStatus) : Bool :=
  s == TaskStatus.completed || s == TaskStatus.failed || s == TaskStatus.cancelled

/-- The polling loop of `TaskQueue.wait_for_result`, discretized at its
`asyncio.sleep(0.1)` granularity: `look n` is the snapshot
`self.results.get(task_id)` at the n-th poll (the dict may be rewritten by
workers between polls), and a truthy `timeout` of `t` seconds admits
`remaining = ⌊t / 0.1⌋ + 2` polls before `elapsed > timeout` raises
`TimeoutError`. The loop performs no writes. -/
def waitPollLoop (look : Nat → Option TaskResult) : Nat → Nat → Except String TaskResult
  | _, 0 => Except.error "timed out"
  | n, remaining + 1 =>
      match look n with
      | some r =>
          if isTerminal r.status then Except.ok r
          else waitPollLoop look (n + 1) remaining
      | none => waitPollLoop look (n + 1) remaining

/-- Embeds `TaskQueue.wait_for_result(task_id, timeout)` for a truthy
timeout admitting `deadline` whole poll intervals, on a queue state `st`:
the loop only reads the results dict, so the state comes back unchanged
alongside the outcome. -/
def waitForResult (st : QueueState) (look : Nat → Option TaskResult) (deadline : Nat) :
    Except String TaskResult × QueueState :=
  (waitPollLoop look 0 (deadline + 2), st)

/-- A worker completing or failing the stored task: `_process_task` applied
through the state, updating the results dict and appending any re-enqueued
entry (with its fresh `time.time()` stamp `now`) to the queue. -/
def applyProcessTask (st : QueueState) (task : Task) (outcome : ExecOutcome)
    (startT endT now : Nat) : QueueState :=
  match dictFind st.results task.task_id with
  | none => st
  | some r =>
      let step := processTask task r outcome startT endT
      { st with
        results := dictSet st.results task.task_id step.1,
        queue := st.queue ++ (step.2.map (fun pt => (pt.1, now, pt.2))).toList }

/-! ### `app/services/parallel_workflow_manager.py` -/

/-- One slot of an `asyncio.gather(..., return_exceptions=True)` result:
either the task's returned value or the exception it ended with. -/
inductive GatherItem (α : Type) where
  | value (v : α)
  | exc (e : String)
deriving DecidableEq, Repr

/-- The typed payload of a post-processing branch task: the upscaling task
returns `(upscaled_dict, upscaled_primary)`, the video task returns video
bytes. -/
inductive BranchResult where
  | upscaled (d : List (String × Img)) (primary : Img)
  | video (v : Img)
deriving DecidableEq, Repr

/-- Embeds `ParallelWorkflowManager._execute_parallel_tasks`: zip the task
names with the gathered outcomes; an exception is logged and recorded as
`None`, a value is recorded as-is (the branch coroutines already map their
own failures to `None`, so the payload is itself optional). -/
def executeParallelTasks (tasks : List (String × GatherItem (Option BranchResult))) :
    List (String × Option BranchResult) :=
  tasks.map (fun t => (t.1,
    match t.2 with
    | .value v => v
    | .exc _ => none))

/-- Embeds the inner `generate_video` coroutine of
`_create_video_generation_task`: `synth` is the
`video_generator.isVideo(...)` collaborator call, which may return bytes,
return `None`, or raise; the surrounding `try/except` converts a raise into
a `None` return, so the task's gathered value is never an exception. -/
def videoTaskValue (synth : Except String (Option Img)) : Option BranchResult :=
  match synth with
  | .ok (some v) => some (BranchResult.video v)
  | .ok none => none
  | .error _ => none

/-- Embeds the inner `upscale` coroutine of `_create_upscaling_task`: run
`upscale_with_fallback`, then recover the upscaled primary by scanning the
input dict for the entry whose bytes equal the primary image and looking
its key up in the upscaled dict (defaulting to the original primary). -/
def createUpscalingTaskValue (retry : String → UpscaleCall)
    (imagesDict : List (String × Img)) (primary : Img) : Option BranchResult :=
  let upscaledDict := (upscaleWithFallback retry imagesDict).1
  let upscaledPrimary :=
    match imagesDict.find? (fun kv => kv.2 == primary) with
    | some kv => (dictFind upscaledDict kv.1).getD primary
    | none => primary
  some (BranchResult.upscaled upscaledDict upscaledPrimary)

/-- The response dict assembled at the end of
`ParallelWorkflowManager.process_request_parallel` (the metadata block,
which carries no branch data, is omitted). -/
structure PipelineResult where
  image_variations : List String
  upscale_image : List String
  output_video_url : Option String
  excel_report_url : String
deriving DecidableEq, Repr

/-- Deterministic model of the storage collaborator's URL for an artifact:
the save helpers are external glue, so a saved artifact's URL is a function
of the request id, a tag for the helper used, and the key. -/
def saveUrl (requestId tag key : String) : String :=
  requestId ++ "/" ++ tag ++ "/" ++ key

/-- Saving every artifact of a variation dict, keeping keys and insertion
order (`save_generated_image_variations` /
`save_original_and_upscaled_images`). -/
def saveDict (requestId tag : String) (m : List (String × Img)) : List (String × String) :=
  m.map (fun kv => (kv.1, saveUrl requestId tag kv.1))

/-- Embeds steps 3 and 4 of
`ParallelWorkflowManager.process_request_parallel` from the point where the
generation stage has produced `variations`: build the parallel task list
(upscaling if `upscaleF`, video if `isVideoF`), gather through
`_execute_parallel_tasks`, adopt the upscaled dict when the upscaling slot
holds one, save originals/upscaled, pick the primary URL
(`get("frontside") or` first value, raising when falsy), record the video
URL only when the video slot holds truthy bytes, build the report, and
assemble the response. `Except.error` models the raised `ValueError`
(surfaced as the workflow's HTTP 500 failure); `Except.ok` is the
successful response. -/
def postProcessAndFinalize (requestId : String) (isVideoF upscaleF : Bool)
    (variations : List (String × Img))
    (upscaleBranch videoBranch : GatherItem (Option BranchResult)) :
    Except String PipelineResult :=
  let tasks :=
    (if upscaleF then [("upscaling", upscaleBranch)] else []) ++
    (if isVideoF then [("video", videoBranch)] else [])
  let parallelResults := executeParallelTasks tasks
  let upscaledPair :=
    if upscaleF then
      match dictFind parallelResults "upscaling" with
      | some (some (BranchResult.upscaled d p)) => some (d, p)
      | _ => none
    else none
  let allVariations :=
    match upscaledPair with
    | some dp => dp.1
    | none => variations
  let originalUrls :=
    if upscaleF then saveDict requestId "original" variations
    else saveDict requestId "generated" variations
  let upscaledUrls := if upscaleF then saveDict requestId "upscaled" allVariations else []
  let variationUrls := if upscaleF then upscaledUrls else originalUrls
  match selectPrimaryPlain variationUrls with
  | none => Except.error "Failed to obtain a primary image URL after saving."
  | some primaryUrl =>
      if primaryUrl == "" then
        Except.error "Failed to obtain a primary image URL after saving."
      else
        let videoUrl :=
          if isVideoF then
            match dictFind parallelResults "video" with
            | some (some (BranchResult.video v)) =>
                if v == "" then none else some (saveUrl requestId "video" "video")
            | _ => none
          else none
        let excelUrl := saveUrl requestId "excel" "report"
        Except.ok
          { image_variations := originalUrls.map Prod.snd,
            upscale_image := if upscaleF then upscaledUrls.map Prod.snd else [],
            output_video_url := videoUrl,
            excel_report_url := excelUrl }

/-! ## Helper lemmas -/

theorem dictSet_fresh (m : List (String × α)) (k : String) (v : α)
    (h : ∀ kv ∈ m, kv.1 ≠ k) : dictSet m k v = m ++ [(k, v)] := by
  unfold dictSet
  rw [if_neg]
  intro hany
  obtain ⟨kv, hkv, hbeq⟩ := List.any_eq_true.1 hany
  exact h kv hkv (by simpa using hbeq)

theorem dictFind_append_right (m : List (String × α)) (k : String) (v : α)
    (h : ∀ kv ∈ m, kv.1 ≠ k) : dictFind (m ++ [(k, v)]) k = some v := by
  unfold dictFind
  induction m with
  | nil => simp [List.find?]
  | cons hd tl ih =>
      have hhd : hd.1 ≠ k := h hd (by simp)
      simp only [List.cons_append, List.find?]
      rw [show (hd.1 == k) = false by simpa using hhd]
      exact ih fun kv hkv => h kv (by simp [hkv])

theorem dictFind_dictSet_self (m : List (String × α)) (k : String) (v : α) :
    dictFind (dictSet m k v) k = some v := by
  unfold dictSet
  by_cases hmem : m.any (fun kv => kv.1 == k)
  · rw [if_pos hmem]
    unfold dictFind
    induction m with
    | nil => simp at hmem
    | cons hd tl ih =>
        by_cases hk : hd.1 == k
        · simp [List.find?, hk]
        · simp only [List.map_cons, List.find?, hk, if_neg, Bool.false_eq_true, not_false_iff]
          simp only [List.any_cons, hk, Bool.false_or] at hmem
          simpa [List.find?, hk] using ih hmem
  · rw [if_neg hmem]
    apply dictFind_append_right
    intro kv hkv hke
    exact hmem (List.any_eq_true.2 ⟨kv, hkv, by simpa using hke⟩)

/-- Searching for the key of a member entry, when keys are pairwise distinct,
finds that entry. -/
theorem find?_key_of_mem_nodup (m : List (String × α)) (k : String) (v : α)
    (hnd : (m.map Prod.fst).Nodup) (hmem : (k, v) ∈ m) :
    m.find? (fun kv => kv.1 == k) = some (k, v) := by
  induction m with
  | nil => simp at hmem
  | cons hd tl ih =>
      simp only [List.map_cons, List.nodup_cons] at hnd
      rcases List.mem_cons.1 hmem with heq | htl
      · subst heq; simp [List.find?]
      · have hne : hd.1 ≠ k := by
          intro hk
          exact hnd.1 (by
            subst hk
            exact List.mem_map.2 ⟨(hd.1, v), htl, rfl⟩)
        simp only [List.find?]
        rw [show (hd.1 == k) = false by simpa using hne]
        exact ih hnd.2 htl

/-- Looking up a key of a member entry, when keys are pairwise distinct,
returns that entry's value. -/
theorem dictFind_of_mem_nodup (m : List (String × α)) (k : String) (v : α)
    (hnd : (m.map Prod.fst).Nodup) (hmem : (k, v) ∈ m) :
    dictFind m k = some v := by
  unfold dictFind
  induction m with
  | nil => simp at hmem
  | cons hd tl ih =>
      simp only [List.map_cons, List.nodup_cons] at hnd
      rcases List.mem_cons.1 hmem with heq | htl
      · subst heq; simp [List.find?]
      · have hne : hd.1 ≠ k := by
          intro hk
          exact hnd.1 (by
            subst hk
            exact List.mem_map.2 ⟨(hd.1, v), htl, rfl⟩)
        simp only [List.find?]
        rw [show (hd.1 == k) = false by simpa using hne]
        exact ih hnd.2 htl

theorem collectUpscaled_eq_map (originalImages : List (String × Img))
    (retry : String → UpscaleCall) :
    ∀ (l : List (String × Img)) (acc : List (String × Img)),
      (∀ kv ∈ l, ∀ kv' ∈ acc, kv'.1 ≠ kv.1) →
      (l.map Prod.fst).Nodup →
      collectUpscaled originalImages acc (l.map (fun kv => limitedUpscale retry kv.1)) =
        acc ++ l.map (fun kv => (kv.1, fallbackValue retry originalImages kv)) := by
  intro l
  induction l with
  | nil => intro acc _ _; simp [collectUpscaled]
  | cons hd tl ih =>
      intro acc hacc hnd
      simp only [List.map_cons, List.nodup_cons] at hnd ⊢
      have hfresh : ∀ kv' ∈ acc, kv'.1 ≠ hd.1 := fun kv' h => hacc hd (by simp) kv' h
      have hset : ∀ v, dictSet acc hd.1 v = acc ++ [(hd.1, v)] := fun v =>
        dictSet_fresh acc hd.1 v hfresh
      have hacc' : ∀ v, ∀ kv ∈ tl, ∀ kv' ∈ acc ++ [(hd.1, v)], kv'.1 ≠ kv.1 := by
        intro v kv hkv kv' hkv'
        rcases List.mem_append.1 hkv' with hin | hin
        · exact hacc kv (by simp [hkv]) kv' hin
        · simp only [List.mem_singleton] at hin
          subst hin
          intro he
          exact hnd.1 (he ▸ List.mem_map.2 ⟨kv, hkv, rfl⟩)
      have hkey : (limitedUpscale retry hd.1).1 = hd.1 := by
        unfold limitedUpscale
        cases retry hd.1 <;> rfl
      rcases hr : (limitedUpscale retry hd.1).2 with _ | b
      · have : limitedUpscale retry hd.1 = (hd.1, none) := by
          cases hlu : limitedUpscale retry hd.1
          simp only [hlu] at hkey hr
          simp [hkey, hr]
        rw [this]
        simp only [collectUpscaled, hset]
        rw [ih _ (hacc' _) hnd.2]
        simp [fallbackValue, hr, List.append_assoc]
      · have : limitedUpscale retry hd.1 = (hd.1, some b) := by
          cases hlu : limitedUpscale retry hd.1
          simp only [hlu] at hkey hr
          simp [hkey, hr]
        rw [this]
        by_cases hb : b == ""
        · simp only [collectUpscaled, hb, if_pos, hset]
          rw [ih _ (hacc' _) hnd.2]
          simp only [fallbackValue, this, hb, if_pos, List.append_assoc]
          rfl
        · simp only [collectUpscaled, hb, if_neg, hset, Bool.false_eq_true, not_false_iff]
          rw [ih _ (hacc' _) hnd.2]
          simp only [fallbackValue, this, hb, if_neg, List.append_assoc, Bool.false_eq_true,
            not_false_iff]
          rfl

/-- Under distinct input keys the output of `upscale_with_fallback` is the
input list with each value replaced by the chosen (upscaled-or-original)
value; in particular it has the same keys in the same order. -/
theorem upscaleWithFallback_eq_map (retry : String → UpscaleCall)
    (imagesDict : List (String × Img)) (hnd : (imagesDict.map Prod.fst).Nodup) :
    (upscaleWithFallback retry imagesDict).1 =
      imagesDict.map (fun kv => (kv.1, fallbackValue retry imagesDict kv)) := by
  unfold upscaleWithFallback
  simpa using collectUpscaled_eq_map imagesDict retry imagesDict [] (by simp) hnd

theorem dictFind_map_withKey (l : List (String × α)) (f : String × α → β) (k : String) :
    dictFind (l.map fun kv => (kv.1, f kv)) k = (l.find? fun kv => kv.1 == k).map f := by
  induction l with
  | nil => simp [dictFind]
  | cons hd tl ih =>
      by_cases hk : hd.1 == k
      · simp [dictFind, List.find?, hk]
      · simp only [List.map_cons, dictFind, List.find?, hk] at ih ⊢
        exact ih

theorem fallbackValue_of_failed (retry : String → UpscaleCall)
    (originalImages : List (String × Img)) (k : String) (v : Img)
    (hfail : retryFailed (retry k) = true) (horig : origLookup originalImages k = v) :
    fallbackValue retry originalImages (k, v) = v := by
  unfold fallbackValue limitedUpscale
  cases hret : retry k with
  | error e => simpa using horig
  | ok r =>
      cases r with
      | none => simpa using horig
      | some b =>
          rw [hret] at hfail
          simp only [retryFailed] at hfail
          simpa [hfail] using horig

theorem collectVariations_eq_filter :
    ∀ (l : List (String × JobOutcome)) (acc : List (String × Img)),
      (∀ kv ∈ l, ∀ kv' ∈ acc, kv'.1 ≠ kv.1) →
      (l.map Prod.fst).Nodup →
      collectVariations acc l =
        acc ++ (l.filter (fun j => jobSucceeded j.2)).map (fun j => (j.1, jobBytes j.2)) := by
  intro l
  induction l with
  | nil => intro acc _ _; simp [collectVariations]
  | cons hd tl ih =>
      intro acc hacc hnd
      simp only [List.map_cons, List.nodup_cons] at hnd
      have htl : ∀ kv ∈ tl, ∀ kv' ∈ acc, kv'.1 ≠ kv.1 := by
        intro kv h kv' h'
        exact hacc kv (by simp [h]) kv' h'
      obtain ⟨k, out⟩ := hd
      cases out with
      | error e =>
          have hs : jobSucceeded (Except.error e : JobOutcome) = false := rfl
          simp only [collectVariations]
          rw [ih acc htl hnd.2, List.filter_cons]
          simp [hs]
      | ok r =>
          cases r with
          | none =>
              have hs : jobSucceeded (Except.ok none : JobOutcome) = false := rfl
              simp only [collectVariations]
              rw [ih acc htl hnd.2, List.filter_cons]
              simp [hs]
          | some b =>
              by_cases hb : b == ""
              · have hs : jobSucceeded (Except.ok (some b) : JobOutcome) = false := by
                  simp [jobSucceeded, hb]
                simp only [collectVariations, hb, if_pos]
                rw [ih acc htl hnd.2, List.filter_cons]
                simp [hs]
              · have hs : jobSucceeded (Except.ok (some b) : JobOutcome) = true := by
                  simp only [jobSucceeded, hb, Bool.not_false]
                have hfresh : ∀ kv' ∈ acc, kv'.1 ≠ k :=
                  fun kv' h' => hacc (k, Except.ok (some b)) (by simp) kv' h'
                have hset := dictSet_fresh acc k b hfresh
                simp only [collectVariations, hb, if_neg, Bool.false_eq_true, not_false_iff, hset]
                have hacc' : ∀ kv ∈ tl, ∀ kv' ∈ acc ++ [(k, b)], kv'.1 ≠ kv.1 := by
                  intro kv h kv' h'
                  rcases List.mem_append.1 h' with hin | hin
                  · exact hacc kv (by simp [h]) kv' hin
                  · simp only [List.mem_singleton] at hin
                    subst hin
                    intro he
                    exact hnd.1 (he ▸ List.mem_map.2 ⟨kv, h, rfl⟩)
                rw [ih _ hacc' hnd.2, List.filter_cons]
                simp [hs, jobBytes, List.append_assoc]

theorem runTaskAux_requeue_priorities (err : Nat → String) :
    ∀ (fuel : Nat) (task : Task) (r : TaskResult) (q : Int),
      q ∈ (runTaskAux (fun n => ExecOutcome.raises (err n)) fuel task r).2.1 →
      q = task.priority + 10 := by
  intro fuel
  induction fuel with
  | zero => intro task r q hq; simp [runTaskAux] at hq
  | succ m ih =>
      intro task r q hq
      by_cases hc : task.retry_count + 1 ≤ task.max_retries
      · simp only [runTaskAux, processTask, hc, if_pos] at hq
        rcases List.mem_cons.1 hq with h | h
        · exact h
        · simpa using ih _ _ q h
      · simp only [runTaskAux, processTask, hc, if_neg] at hq
        simp at hq

theorem waitPollLoop_timeout (look : Nat → Option TaskResult)
    (hpoll : ∀ n r', look n = some r' → isTerminal r'.status = false) :
    ∀ (remaining n : Nat), waitPollLoop look n remaining = Except.error "timed out" := by
  intro remaining
  induction remaining with
  | zero => intro n; rfl
  | succ m ih =>
      intro n
      simp only [waitPollLoop]
      cases hl : look n with
      | none => exact ih (n + 1)
      | some r' =>
          have hterm := hpoll n r' hl
          simp [hterm, ih (n + 1)]

theorem saveUrl_ne_empty (r t k : String) : saveUrl r t k ≠ "" := by
  intro h
  have hlen := congrArg String.length h
  simp [saveUrl, String.length_append] at hlen
  exact absurd hlen.1.2 (by decide)

theorem selectPrimaryPlain_saveDict (rid tag : String) (d : List (String × Img))
    (hd : d ≠ []) :
    ∃ u, selectPrimaryPlain (saveDict rid tag d) = some u ∧ (u == "") = false := by
  cases hf : dictFind (saveDict rid tag d) "frontside" with
  | some u =>
      have hmem : ∃ kv, kv ∈ saveDict rid tag d ∧ kv.2 = u := by
        unfold dictFind at hf
        cases hfind : (saveDict rid tag d).find? (fun kv => kv.1 == "frontside") with
        | none => rw [hfind] at hf; simp at hf
        | some kv =>
            rw [hfind] at hf
            exact ⟨kv, List.mem_of_find?_eq_some hfind, by
              have := hf
              simp only [Option.map] at this
              injection this⟩
      obtain ⟨kv, hkv, hval⟩ := hmem
      obtain ⟨kv0, _hkv0, heq⟩ := List.mem_map.1 hkv
      have hne : u ≠ "" := by
        rw [← hval, ← heq]
        exact saveUrl_ne_empty rid tag kv0.1
      refine ⟨u, ?_, beq_false_of_ne hne⟩
      unfold selectPrimaryPlain
      rw [hf]
      simp [beq_false_of_ne hne]
  | none =>
      obtain ⟨kv0, tl, hdl⟩ : ∃ kv0 tl, d = kv0 :: tl := by
        cases d with
        | nil => exact absurd rfl hd
        | cons a b => exact ⟨a, b, rfl⟩
      subst hdl
      refine ⟨saveUrl rid tag kv0.1, ?_,
        beq_false_of_ne (saveUrl_ne_empty rid tag kv0.1)⟩
      unfold selectPrimaryPlain
      rw [hf]
      rfl

/-! ## Claim theorems -/

/-- C3: a task enqueued with `max_retries = 2` whose runnable raises on
every execution is executed exactly 3 times in total (one initial attempt
plus two retries via demoted re-enqueue), and its final stored status is
Failed carrying the error captured on the last attempt. -/
theorem retry_exhaustion_three_attempts
    (err : Nat → String) (tid : String) (p : Int) (r : TaskResult) :
    (runTask (fun n => ExecOutcome.raises (err n))
        { task_id := tid, priority := p, max_retries := 2, retry_count := 0 } r).1 = 3
    ∧ (runTask (fun n => ExecOutcome.raises (err n))
        { task_id := tid, priority := p, max_retries := 2, retry_count := 0 } r).2.2.status =
        TaskStatus.failed
    ∧ (runTask (fun n => ExecOutcome.raises (err n))
        { task_id := tid, priority := p, max_retries := 2, retry_count := 0 } r).2.2.error =
        some (err 2) := by
  refine ⟨?_, ?_, ?_⟩ <;>
    simp [runTask, runTaskAux, processTask]

/-- C4 (evaluation at the failing input): when the queue already holds
`max_queue_size` entries, `add_task` leaves the caller suspended inside the
awaited `queue.put` — bounded-buffer backpressure — and never reaches the
`except asyncio.QueueFull` branch, so no queue-full error is raised to the
enqueuing caller. -/
theorem add_task_at_capacity_blocks
    (st : QueueState) (tid : String) (p : Int) (mr now : Nat)
    (hfull : st.queue.length = st.max_queue_size) :
    addTask st tid p mr now = AddTaskOutcome.blockedOnPut st
    ∧ ∀ st', addTask st tid p mr now ≠ AddTaskOutcome.raisedQueueFull st' := by
  have hnot : ¬ st.queue.length < st.max_queue_size := by omega
  constructor
  · simp [addTask, hnot]
  · intro st' h
    simp [addTask, hnot] at h

/-- Witness for the C4 evaluation at a concrete queue of capacity 1 holding
one entry. -/
theorem add_task_at_capacity_blocks_witness :
    addTask ⟨1, [(1, 0, ⟨"t1", 1, 3, 0⟩)], []⟩ "t2" 1 3 5 =
      AddTaskOutcome.blockedOnPut ⟨1, [(1, 0, ⟨"t1", 1, 3, 0⟩)], []⟩
    ∧ ∀ st', addTask ⟨1, [(1, 0, ⟨"t1", 1, 3, 0⟩)], []⟩ "t2" 1 3 5 ≠
        AddTaskOutcome.raisedQueueFull st' :=
  add_task_at_capacity_blocks ⟨1, [(1, 0, ⟨"t1", 1, 3, 0⟩)], []⟩ "t2" 1 3 5 rfl

/-- C5: a `wait_for_result` call whose polls never observe a terminal
status raises the timeout error and leaves the queue state untouched; the
underlying task keeps running, and once a worker completes it a later
`get_result` on the same task id shows Completed with its result intact. -/
theorem wait_for_result_timeout_independence
    (st : QueueState) (look : Nat → Option TaskResult) (deadline : Nat)
    (task : Task) (r : TaskResult) (v : Img) (t1 t2 now : Nat)
    (hpoll : ∀ n r', look n = some r' → isTerminal r'.status = false)
    (hr : getResult st task.task_id = some r) :
    waitForResult st look deadline = (Except.error "timed out", st)
    ∧ ∃ r', getResult (applyProcessTask st task (ExecOutcome.ok v) t1 t2 now)
          task.task_id = some r'
        ∧ r'.status = TaskStatus.completed ∧ r'.result = some v := by
  constructor
  · unfold waitForResult
    rw [waitPollLoop_timeout look hpoll (deadline + 2) 0]
  · refine ⟨⟨r.task_id, TaskStatus.completed, some v, r.error, some t1, some t2⟩,
      ?_, rfl, rfl⟩
    unfold applyProcessTask
    unfold getResult at hr
    rw [hr]
    simp [processTask, getResult, dictFind_dictSet_self]

/-- Witness for C5: a concrete state whose stored result for `"t1"` is
Pending, polls that always observe Pending, and a worker success with value
`"IMG"`. -/
theorem wait_for_result_timeout_independence_witness :
    waitForResult ⟨10, [], [("t1", ⟨"t1", TaskStatus.pending, none, none, none, none⟩)]⟩
        (fun _ => some ⟨"t1", TaskStatus.pending, none, none, none, none⟩) 3 =
      (Except.error "timed out",
       ⟨10, [], [("t1", ⟨"t1", TaskStatus.pending, none, none, none, none⟩)]⟩)
    ∧ ∃ r', getResult (applyProcessTask
          ⟨10, [], [("t1", ⟨"t1", TaskStatus.pending, none, none, none, none⟩)]⟩
          ⟨"t1", 1, 3, 0⟩ (ExecOutcome.ok "IMG") 4 9 9) "t1" = some r'
        ∧ r'.status = TaskStatus.completed ∧ r'.result = some "IMG" :=
  wait_for_result_timeout_independence
    ⟨10, [], [("t1", ⟨"t1", TaskStatus.pending, none, none, none, none⟩)]⟩
    (fun _ => some ⟨"t1", TaskStatus.pending, none, none, none, none⟩) 3
    ⟨"t1", 1, 3, 0⟩ ⟨"t1", TaskStatus.pending, none, none, none, none⟩ "IMG" 4 9 9
    (fun n r' h => by
      injection h with h2
      rw [← h2]
      rfl) rfl

/-- C6 counterexample: a task with priority 0 and `max_retries = 2` that
always fails is re-enqueued twice, both times with queue priority
`0 + 10 = 10`; the claimed k-th re-enqueue priority `0 + k·10` would be
`[10, 20]`, which the code's `[10, 10]` is not. -/
theorem retry_demotion_counterexample :
    (runTask (fun _ => ExecOutcome.raises "boom")
        { task_id := "t1", priority := 0, max_retries := 2, retry_count := 0 }
        { task_id := "t1", status := TaskStatus.pending }).2.1 = [10, 10]
    ∧ (runTask (fun _ => ExecOutcome.raises "boom")
        { task_id := "t1", priority := 0, max_retries := 2, retry_count := 0 }
        { task_id := "t1", status := TaskStatus.pending }).2.1 ≠
        [0 + 1 * 10, 0 + 2 * 10] := by
  constructor
  · rfl
  · decide

/-- C6 (amended): a task that fails with `retry_count` still within
`max_retries` is re-enqueued with its status reset to Pending and queue
priority equal to the task's original priority plus the penalty 10; the
stored `task.priority` is never mutated, so every successive re-enqueue
(the k-th included) carries the original priority plus one penalty, not k
penalties. -/
theorem retry_demotion_fixed_penalty
    (task : Task) (r : TaskResult) (e : String) (t1 t2 : Nat)
    (hretry : task.retry_count + 1 ≤ task.max_retries) :
    processTask task r (ExecOutcome.raises e) t1 t2 =
      ({ r with status := TaskStatus.pending, start_time := none },
       some (task.priority + 10, { task with retry_count := task.retry_count + 1 }))
    ∧ ∀ (err : Nat → String) (fuel : Nat) (task₀ : Task) (r₀ : TaskResult) (q : Int),
        q ∈ (runTaskAux (fun n => ExecOutcome.raises (err n)) fuel task₀ r₀).2.1 →
        q = task₀.priority + 10 := by
  constructor
  · simp [processTask, hretry]
  · intro errf fuel task₀ r₀ q hq
    exact runTaskAux_requeue_priorities errf fuel task₀ r₀ q hq

/-- Witness for the amended C6: a concrete first failure of a
priority-5 task re-enqueues at 15 with status Pending, and every
re-enqueue priority of a concrete always-failing run equals
original + 10. -/
theorem retry_demotion_fixed_penalty_witness :
    processTask ⟨"t1", 5, 2, 0⟩ ⟨"t1", TaskStatus.pending, none, none, none, none⟩
        (ExecOutcome.raises "boom") 0 1 =
      (⟨"t1", TaskStatus.pending, none, none, none, none⟩, some (5 + 10, ⟨"t1", 5, 2, 1⟩))
    ∧ ∀ (err : Nat → String) (fuel : Nat) (task₀ : Task) (r₀ : TaskResult) (q : Int),
        q ∈ (runTaskAux (fun n => ExecOutcome.raises (err n)) fuel task₀ r₀).2.1 →
        q = task₀.priority + 10 :=
  retry_demotion_fixed_penalty ⟨"t1", 5, 2, 0⟩
    ⟨"t1", TaskStatus.pending, none, none, none, none⟩ "boom" 0 1 (by decide)

/-- C8: when video is requested and the video branch fails (its collaborator
returned `None`) or raises (an exception reaches the gather slot), the
request still completes successfully: the response's video field is `None`,
while the upscale branch's results (the upscaled URLs, and the original
URLs) are present in it unchanged. -/
theorem video_branch_failure_optional
    (requestId : String) (variations : List (String × Img))
    (d : List (String × Img)) (p : Img)
    (vb : GatherItem (Option BranchResult))
    (hd : d ≠ [])
    (hvb : vb = GatherItem.value none ∨ ∃ e, vb = GatherItem.exc e) :
    ∃ res, postProcessAndFinalize requestId true true variations
        (GatherItem.value (some (BranchResult.upscaled d p))) vb = Except.ok res
      ∧ res.output_video_url = none
      ∧ res.upscale_image = (saveDict requestId "upscaled" d).map Prod.snd
      ∧ res.image_variations = (saveDict requestId "original" variations).map Prod.snd := by
  obtain ⟨u, hu, hune⟩ := selectPrimaryPlain_saveDict requestId "upscaled" d hd
  have hv : (match vb with
    | GatherItem.value v => v
    | GatherItem.exc _ => (none : Option BranchResult)) = none := by
    rcases hvb with h | ⟨e, h⟩ <;> subst h <;> rfl
  refine ⟨⟨(saveDict requestId "original" variations).map Prod.snd,
      (saveDict requestId "upscaled" d).map Prod.snd,
      none, saveUrl requestId "excel" "report"⟩, ?_, rfl, rfl, rfl⟩
  simp only [postProcessAndFinalize, executeParallelTasks, if_true, List.cons_append,
    List.nil_append, List.map_cons, List.map_nil, hv]
  have hfu : dictFind [("upscaling", some (BranchResult.upscaled d p)),
      ("video", (none : Option BranchResult))] "upscaling" =
      some (some (BranchResult.upscaled d p)) := rfl
  have hfv : dictFind [("upscaling", some (BranchResult.upscaled d p)),
      ("video", (none : Option BranchResult))] "video" = some none := rfl
  rw [hfu, hfv, hu]
  simp [hune]

/-- Witness for C8 at a concrete request: two upscaled variations, a video
branch that raised; the response is successful, carries no video URL, and
lists both upscaled URLs. -/
theorem video_branch_failure_optional_witness :
    ∃ res, postProcessAndFinalize "req1" true true
        [("frontside", "F"), ("backside", "B")]
        (GatherItem.value (some (BranchResult.upscaled
          [("frontside", "FU"), ("backside", "BU")] "FU")))
        (GatherItem.exc "video collaborator crashed") = Except.ok res
      ∧ res.output_video_url = none
      ∧ res.upscale_image =
          (saveDict "req1" "upscaled" [("frontside", "FU"), ("backside", "BU")]).map Prod.snd
      ∧ res.image_variations =
          (saveDict "req1" "original" [("frontside", "F"), ("backside", "B")]).map Prod.snd :=
  video_branch_failure_optional "req1" [("frontside", "F"), ("backside", "B")]
    [("frontside", "FU"), ("backside", "BU")] "FU"
    (GatherItem.exc "video collaborator crashed")
    (by decide) (Or.inr ⟨"video collaborator crashed", rfl⟩)

/-- C10: `add_task` with a `task_id` that already has a stored result —
terminal or not — succeeds (given queue room) and unconditionally
overwrites that stored result with a fresh Pending `TaskResult` whose
`result` and `error` are `None`, discarding the prior state. -/
theorem add_task_overwrites_stored_result
    (st : QueueState) (tid : String) (p : Int) (mr now : Nat) (r : TaskResult)
    (_hstored : getResult st tid = some r)
    (hroom : st.queue.length < st.max_queue_size) :
    ∃ st', addTask st tid p mr now = AddTaskOutcome.returned tid st'
      ∧ getResult st' tid =
          some ⟨tid, TaskStatus.pending, none, none, none, none⟩ := by
  refine ⟨{ st with
      queue := st.queue ++ [(p, now, ⟨tid, p, mr, 0⟩)],
      results := dictSet st.results tid
        ⟨tid, TaskStatus.pending, none, none, none, none⟩ }, ?_, ?_⟩
  · simp [addTask, hroom]
  · simp [getResult, dictFind_dictSet_self]

/-- Witness for C10: the stored result for `"t1"` is terminal Completed
with a result and an error recorded; re-adding `"t1"` resets it to a fresh
Pending result. -/
theorem add_task_overwrites_stored_result_witness :
    (∃ st', addTask
        ⟨10, [], [("t1", ⟨"t1", TaskStatus.completed, some "OLD", some "olderr",
                          some 0, some 1⟩)]⟩ "t1" 2 3 7 =
        AddTaskOutcome.returned "t1" st'
      ∧ getResult st' "t1" =
          some ⟨"t1", TaskStatus.pending, none, none, none, none⟩) :=
  add_task_overwrites_stored_result
    ⟨10, [], [("t1", ⟨"t1", TaskStatus.completed, some "OLD", some "olderr",
                      some 0, some 1⟩)]⟩ "t1" 2 3 7
    ⟨"t1", TaskStatus.completed, some "OLD", some "olderr", some 0, some 1⟩
    rfl (by decide)

/-- C1: for every input map of keyed artifacts passed to
`ConcurrentUpscaler.upscale_with_fallback` and every pattern of per-key
upscale failures or exceptions, the returned map has exactly the input's
keys (same keys, same order, hence the same count), and every key whose
upscale attempts all failed holds its original input bytes unchanged. -/
theorem upscale_with_fallback_fallback_invariant
    (retry : String → UpscaleCall) (imagesDict : List (String × Img))
    (hnd : (imagesDict.map Prod.fst).Nodup) :
    (upscaleWithFallback retry imagesDict).1.map Prod.fst = imagesDict.map Prod.fst
    ∧ ∀ k v, (k, v) ∈ imagesDict → retryFailed (retry k) = true →
        dictFind (upscaleWithFallback retry imagesDict).1 k = some v := by
  have hmap := upscaleWithFallback_eq_map retry imagesDict hnd
  constructor
  · rw [hmap]
    simp
  · intro k v hmem hfail
    rw [hmap, dictFind_map_withKey, find?_key_of_mem_nodup imagesDict k v hnd hmem]
    have horig : origLookup imagesDict k = v := by
      unfold origLookup
      rw [dictFind_of_mem_nodup imagesDict k v hnd hmem]
      rfl
    simp [fallbackValue_of_failed retry imagesDict k v hfail horig]

/-- Witness for C1 at a concrete two-key batch in which the upscale of
`"frontside"` raises and the upscale of `"backside"` returns `None`: both
keys survive and both fall back to their original bytes. -/
theorem upscale_with_fallback_fallback_invariant_witness :
    (upscaleWithFallback
        (fun k => if k == "frontside" then Except.error "boom" else Except.ok none)
        [("frontside", "IMG1"), ("backside", "IMG2")]).1.map Prod.fst =
      [("frontside", "IMG1"), ("backside", "IMG2")].map Prod.fst
    ∧ dictFind (upscaleWithFallback
        (fun k => if k == "frontside" then Except.error "boom" else Except.ok none)
        [("frontside", "IMG1"), ("backside", "IMG2")]).1 "frontside" = some "IMG1" := by
  have h := upscale_with_fallback_fallback_invariant
    (fun k => if k == "frontside" then Except.error "boom" else Except.ok none)
    [("frontside", "IMG1"), ("backside", "IMG2")] (by decide)
  exact ⟨h.1, h.2 "frontside" "IMG1" (by decide) (by decide)⟩

/-- C2: for every batch of generation jobs with distinct ids, the variation
map built by `generate_images_with_background_array_concurrent` has exactly
the succeeded jobs' keys (one per succeeded job, in submission order, none
for failed or raising jobs), and the fatal batch error is raised if and only
if no job succeeded. -/
theorem generation_variation_map_partial_success (jobs : List (String × JobOutcome))
    (hnd : (jobs.map Prod.fst).Nodup) :
    (collectVariations [] jobs).map Prod.fst =
      (jobs.filter (fun j => jobSucceeded j.2)).map Prod.fst
    ∧ ((∃ e, generateImagesBackgroundArray jobs = Except.error e) ↔
        ∀ j ∈ jobs, jobSucceeded j.2 = false) := by
  have hcoll := collectVariations_eq_filter jobs [] (by simp) hnd
  have hempty : (collectVariations [] jobs).isEmpty = true ↔
      ∀ j ∈ jobs, jobSucceeded j.2 = false := by
    rw [hcoll]
    simp only [List.nil_append, List.isEmpty_iff, List.map_eq_nil_iff, List.filter_eq_nil_iff]
    constructor
    · intro h j hj
      simpa using h j hj
    · intro h j hj
      simp [h j hj]
  constructor
  · rw [hcoll]
    simp
  · constructor
    · rintro ⟨e, he⟩
      by_cases hemp : (collectVariations [] jobs).isEmpty
      · exact hempty.1 hemp
      · exfalso
        simp only [generateImagesBackgroundArray, hemp] at he
        rw [if_neg (by simp [hemp])] at he
        exact Except.noConfusion he
    · intro h
      refine ⟨"All background array generation tasks failed.", ?_⟩
      simp only [generateImagesBackgroundArray]
      rw [if_pos (hempty.2 h)]

/-- Witness for C2 at a concrete three-job batch in which exactly one job
succeeds: the map has exactly the succeeded job's key, and no fatal error is
raised (the error is raised exactly when every job failed, which is false
here). -/
theorem generation_variation_map_partial_success_witness :
    (collectVariations []
        [("frontside_white_1", Except.ok (some "B1")),
         ("backside_white_1", Except.error "timeout"),
         ("sideview_white_1", Except.ok none)]).map Prod.fst =
      ([("frontside_white_1", Except.ok (some "B1")),
        ("backside_white_1", Except.error "timeout"),
        ("sideview_white_1", Except.ok none)].filter
          (fun j => jobSucceeded j.2)).map Prod.fst
    ∧ ((∃ e, generateImagesBackgroundArray
          [("frontside_white_1", Except.ok (some "B1")),
           ("backside_white_1", Except.error "timeout"),
           ("sideview_white_1", Except.ok none)] = Except.error e) ↔
        ∀ j ∈ [(("frontside_white_1" : String), Except.ok (some ("B1" : Img))),
               ("backside_white_1", Except.error "timeout"),
               ("sideview_white_1", Except.ok none)], jobSucceeded j.2 = false) :=
  generation_variation_map_partial_success
    [("frontside_white_1", Except.ok (some "B1")),
     ("backside_white_1", Except.error "timeout"),
     ("sideview_white_1", Except.ok none)] (by decide)

/-- C7: primary-artifact selection is a deterministic scan of the variation
map in insertion order: the first entry whose key carries the `"frontside"`
tag is returned (its value being truthy artifact bytes), and when no key
matches, the first entry overall; the companion selection of
`generate_images_concurrent` looks up the exact `"frontside"` key the same
way. -/
theorem primary_selection_deterministic (vars : List (String × Img)) :
    (∀ kv, vars.find? (fun p => pyStartsWith p.1 "frontside") = some kv → kv.2 ≠ "" →
        selectPrimary vars = some kv.2)
    ∧ (vars.find? (fun p => pyStartsWith p.1 "frontside") = none →
        selectPrimary vars = vars.head?.map Prod.snd)
    ∧ (∀ b, dictFind vars "frontside" = some b → b ≠ "" →
        selectPrimaryPlain vars = some b) := by
  refine ⟨?_, ?_, ?_⟩
  · intro kv hfind hne
    unfold selectPrimary
    rw [hfind]
    simp [hne]
  · intro hfind
    unfold selectPrimary
    rw [hfind]
    rfl
  · intro b hfind hne
    unfold selectPrimaryPlain
    rw [hfind]
    simp [hne]

/-- Witness for C7 at the spec's example: the map
`{"sideview": A, "frontside": B, "backside": C}` in that insertion order
selects `B`, under both selection routines. -/
theorem primary_selection_deterministic_witness :
    selectPrimary [("sideview", "A"), ("frontside", "B"), ("backside", "C")] = some "B"
    ∧ selectPrimaryPlain [("sideview", "A"), ("frontside", "B"), ("backside", "C")] =
        some "B" := by
  have h := primary_selection_deterministic
    [("sideview", "A"), ("frontside", "B"), ("backside", "C")]
  exact ⟨h.1 ("frontside", "B") (by decide) (by decide), h.2.2 "B" (by decide) (by decide)⟩

/-- C9 counterexample: `_upscale_with_retry` is called with its default
`max_retries = 2`, so a key whose upscale always fails is attempted 3 times
(one initial attempt plus two retries), not the 2 total attempts ("retries
exactly once") the claim states; no chunk/tile parameter changes between
these attempts. -/
theorem upscale_retry_count_counterexample :
    (upscaleWithRetryDefault (fun _ => Except.error "CUDA out of memory")).2 = 3
    ∧ ¬ (upscaleWithRetryDefault (fun _ => Except.error "CUDA out of memory")).2 = 2 := by
  constructor
  · rfl
  · intro h
    simpa using h.symm.trans (show (upscaleWithRetryDefault
      (fun _ => Except.error "CUDA out of memory")).2 = 3 from rfl)

/-- C9 (amended): for a key whose upscale attempts keep failing,
`_upscale_with_retry` retries up to two more times — three attempts in total
with its default `max_retries = 2` — before giving up, with unchanged
parameters between attempts; the reduced-tile-size degradation lives one
level down: inside a single attempt, `_upscale_with_realesrgan` retries
exactly once with tile size 64 (reduced from 128) after the first enhance
call raises. -/
theorem upscale_retry_three_attempts_and_tile_degradation
    (call : Nat → UpscaleCall) (enhance : Nat → Except String Img) (e : String)
    (hfail : ∀ n, attemptSucceeds (call n) = none)
    (henh : enhance 128 = Except.error e) :
    upscaleWithRetryDefault call = (none, 3)
    ∧ (upscaleWithRealesrgan enhance).2 = [128, 64] := by
  constructor
  · show runAttempts call (List.range 3) = (none, 3)
    have hr : List.range 3 = [0, 1, 2] := rfl
    rw [hr]
    simp [runAttempts, hfail 0, hfail 1, hfail 2]
  · unfold upscaleWithRealesrgan
    rw [henh]
    cases enhance 64 <;> rfl

/-- Witness for the amended C9 at a concrete always-failing upscale oracle
and an enhance oracle that raises at tile size 128. -/
theorem upscale_retry_three_attempts_and_tile_degradation_witness :
    upscaleWithRetryDefault (fun _ => Except.ok none) = (none, 3)
    ∧ (upscaleWithRealesrgan
        (fun t => if t == 128 then Except.error "oom" else Except.ok "IMG")).2 = [128, 64] :=
  upscale_retry_three_attempts_and_tile_degradation
    (fun _ => Except.ok none)
    (fun t => if t == 128 then Except.error "oom" else Except.ok "IMG")
    "oom" (fun _ => rfl) rfl

end FashionAi
